import Mathlib

/-!
Shallow embedding of `src/app.py` (Grocery List Populator), centred on
`extract_ingredients` and the error-string test made by the `index` route.

Modelling conventions:
* The network is the environment: the input to `extract_ingredients` is a
  `FetchOutcome` — either the fetched, parsed page or the message of the
  `requests.exceptions.RequestException` that the fetch raised
  (`requests.get` / `raise_for_status`, app.py lines 18-19).
* A parsed page records exactly the observations the function makes of the
  soup: the (already `get_text(strip=True)`-stripped) text of the first
  truthy `h1` and of the `title` tag, the list of
  `script[type="application/ld+json"]` blocks, and the list of all
  elements (tag name, class tokens, stripped text) in document order.
* `json.loads(script.string)` has three relevant outcomes, captured by the
  `Script` type: the tag has no text (`script.string` is `None`, so
  `json.loads` raises `TypeError`, which `except json.JSONDecodeError`
  does not catch), the text is not valid JSON (`JSONDecodeError`, caught,
  block skipped), or it decodes to a JSON value.
* Decoded JSON values are the `Json` inductive; Python dict/list/str
  operations on them (`.get`, `in`, iteration, truthiness, `"\n".join`)
  are modelled by total Lean functions returning `Except PyError _` where
  the Python operation can raise.
-/

/-- A decoded JSON value, as produced by `json.loads`. -/
inductive Json where
  | null : Json
  | bool (b : Bool) : Json
  | num (n : Int) : Json
  | str (s : String) : Json
  | arr (l : List Json) : Json
  | obj (fields : List (String × Json)) : Json

/-- Python `x == 'Recipe'` on an `item.get('@type')` result: `True` exactly
when the value is the string `'Recipe'` (comparison with a non-string, or a
missing key's `None`, is `False`). -/
def isRecipeVal : Option Json → Bool
  | some (.str s) => s = "Recipe"
  | _ => false

/-- The Python exceptions the body of `extract_ingredients` can raise past
the per-script `except json.JSONDecodeError` handler. -/
inductive PyError where
  | typeError (m : String) : PyError
  | attributeError (m : String) : PyError
deriving DecidableEq, Repr

/-- Python `str(e)` for the exception, as interpolated by `f"...{e}"`. -/
def PyError.msg : PyError → String
  | .typeError m => m
  | .attributeError m => m

/-- Key lookup in a JSON object (`dict` keys are unique after `json.loads`). -/
def jLookup (fields : List (String × Json)) (k : String) : Option Json :=
  match fields with
  | [] => none
  | (k', v) :: rest => if k' = k then some v else jLookup rest k

/-- Python `item.get(key)`: `AttributeError` unless `item` is a dict. -/
def pyGet (j : Json) (k : String) : Except PyError (Option Json) :=
  match j with
  | .obj fields => .ok (jLookup fields k)
  | _ => .error (.attributeError ("object has no attribute get: " ++ k))

/-- Python `item.get(key, default)`. -/
def pyGetD (j : Json) (k : String) (d : Json) : Except PyError Json :=
  match j with
  | .obj fields => .ok ((jLookup fields k).getD d)
  | _ => .error (.attributeError ("object has no attribute get: " ++ k))

/-- Python truthiness of a decoded JSON value (`if ingredients:`). -/
def truthy : Json → Bool
  | .null => false
  | .bool b => b
  | .num n => n != 0
  | .str s => s ≠ ""
  | .arr l => !l.isEmpty
  | .obj fields => !fields.isEmpty

/-- Checks a decoded JSON list consists only of strings, extracting them;
`"\n".join` raises `TypeError` on any non-string element. -/
def asStrList : List Json → Option (List String)
  | [] => some []
  | .str s :: rest => (asStrList rest).map (s :: ·)
  | _ => none

/-- Python `"\n".join(x)`: joins list elements (all must be `str`), the
characters of a string, or the keys of a dict; `TypeError` otherwise. -/
def pyJoin : Json → Except PyError String
  | .arr l =>
    match asStrList l with
    | some strs => .ok (String.intercalate "\n" strs)
    | none => .error (.typeError "sequence item: expected str instance")
  | .str s => .ok (String.intercalate "\n" (s.data.map String.singleton))
  | .obj fields => .ok (String.intercalate "\n" (fields.map Prod.fst))
  | _ => .error (.typeError "can only join an iterable")

/-- Python `for graph_item in item['@graph']`: iterating a list yields its
elements, a string its one-character substrings, a dict its keys;
`TypeError` otherwise. -/
def pyIterate : Json → Except PyError (List Json)
  | .arr l => .ok l
  | .str s => .ok (s.data.map (fun c => Json.str (String.singleton c)))
  | .obj fields => .ok (fields.map (fun kv => Json.str kv.1))
  | _ => .error (.typeError "object is not iterable")

/-- The inner `for graph_item in item['@graph']` loop (app.py lines 48-52):
return the joined `recipeIngredient` of the first `Recipe`-typed entry whose
ingredient value is truthy. -/
def scanGraph : List Json → Except PyError (Option String)
  | [] => .ok none
  | g :: rest => do
    let t ← pyGet g "@type"
    if isRecipeVal t then
      let ing ← pyGetD g "recipeIngredient" (Json.arr [])
      if truthy ing then
        let s ← pyJoin ing
        return some s
      else
        scanGraph rest
    else
      scanGraph rest

/-- The `@graph` half of the per-item body (app.py lines 47-52):
`isinstance(item, dict) and '@graph' in item`, then scan the graph. -/
def graphPart (j : Json) : Except PyError (Option String) :=
  match j with
  | .obj fields =>
    match jLookup fields "@graph" with
    | some g => do
      let items ← pyIterate g
      scanGraph items
    | none => .ok none
  | _ => .ok none

/-- One iteration of `for item in data_list` (app.py lines 39-52): the
direct `@type == 'Recipe'` check, falling through to the `@graph` check. -/
def processItem (j : Json) : Except PyError (Option String) := do
  let t ← pyGet j "@type"
  if isRecipeVal t then
    let ing ← pyGetD j "recipeIngredient" (Json.arr [])
    if truthy ing then
      let s ← pyJoin ing
      return some s
    else
      graphPart j
  else
    graphPart j

/-- The loop `for item in data_list`: first item that returns wins. -/
def scanItems : List Json → Except PyError (Option String)
  | [] => .ok none
  | j :: rest => do
    match ← processItem j with
    | some s => return some s
    | none => scanItems rest

/-- One `script[type="application/ld+json"]` block, by the outcome of
`json.loads(script.string)`. -/
inductive Script where
  | noText : Script
  | malformed : Script
  | decoded (j : Json) : Script

/-- The normalization `data if isinstance(data, list) else [data]` (app.py line 37). -/
def dataList (j : Json) : List Json :=
  match j with
  | .arr l => l
  | _ => [j]

/-- Processing of one script block inside the `try`/`except
json.JSONDecodeError` (app.py lines 32-56): a `None` string raises
`TypeError` (uncaught), a malformed block is skipped, a decoded one is
scanned. -/
def scanScript : Script → Except PyError (Option String)
  | .noText =>
    .error (.typeError "the JSON object must be str, bytes or bytearray, not NoneType")
  | .malformed => .ok none
  | .decoded j => scanItems (dataList j)

/-- The loop `for script in scripts` (app.py line 32): first block that returns wins;
an uncaught exception aborts the whole scan. -/
def scanScripts : List Script → Except PyError (Option String)
  | [] => .ok none
  | s :: rest => do
    match ← scanScript s with
    | some r => return some r
    | none => scanScripts rest

/-! ## Heuristic HTML fallback (app.py lines 58-94) -/

/-- An element of the parsed document: tag name, class-attribute tokens
(empty list when the attribute is absent) and `get_text(strip=True)`. -/
structure Element where
  tag : String
  classes : List String
  text : String
deriving DecidableEq, Repr

/-- Python `pat in s` (substring containment) on the character sequences:
some position of `s` starts with `pat` (an empty pattern is contained in
every string). -/
def subOccurs (pat : List Char) : List Char → Bool
  | [] => pat.isEmpty
  | c :: rest => pat.isPrefixOf (c :: rest) || subOccurs pat rest

/-- Python `s.lower()`, as the character sequence (`Char.toLower` agrees
with Python on the ASCII class names and texts involved here). -/
def lowerData (s : String) : List Char :=
  s.data.map Char.toLower

/-- The list `common_ingredient_classes` (app.py lines 61-71). -/
def common_ingredient_classes : List String :=
  [ "wprm-recipe-ingredient",
    "ingredient",
    "ingredients",
    "recipe-ingredients",
    "list-ingredients",
    "tasty-recipes-ingredients",
    "pantry-list",
    "recipeIngredient",
    "o-Ingredients__a-Ingredient" ]

/-- The `find_all` filter (app.py lines 77-80): tag is `li`, `span` or
`div`, and some class token contains the class name, case-insensitively
(BeautifulSoup calls the `class_` lambda on each class token; the `c and`
guard makes class-less elements fail). -/
def matchesClass (cls : String) (e : Element) : Bool :=
  (e.tag = "li" || e.tag = "span" || e.tag = "div")
    && e.classes.any (fun c => subOccurs (lowerData cls) (lowerData c))

/-- Accumulating splitter behind `pyWords`: maximal non-whitespace runs. -/
def wordsAux (cur : List Char) : List Char → List (List Char)
  | [] => if cur.isEmpty then [] else [cur.reverse]
  | c :: rest =>
    if c.isWhitespace then
      if cur.isEmpty then wordsAux [] rest else cur.reverse :: wordsAux [] rest
    else wordsAux (c :: cur) rest

/-- Python `text.split()`: the maximal whitespace-free runs, no empties. -/
def pyWords (s : String) : List (List Char) :=
  wordsAux [] s.data

/-- The unit tokens `['cup', 'tsp', 'tbsp', 'oz', 'gram', 'ml']` (app.py line 86). -/
def unitTokens : List String := ["cup", "tsp", "tbsp", "oz", "gram", "ml"]

/-- The candidate filter (app.py lines 86-88): non-empty text, more than
one word, a measurement-unit token somewhere (case-insensitive), and not
instructional text. -/
def keepCandidate (text : String) : Bool :=
  text ≠ "" && decide ((pyWords text).length > 1)
    && unitTokens.any (fun u => subOccurs u.data (lowerData text))
    && !subOccurs "cook time".data (lowerData text)
    && !subOccurs "directions".data (lowerData text)

/-- The lines appended to `ingredient_list` for one class name
(app.py lines 82-89), in document order. -/
def candidatesOf (cls : String) (els : List Element) : List String :=
  ((els.filter (matchesClass cls)).map Element.text).filter keepCandidate

/-- Lexicographic comparison of character sequences by code point, i.e.
Python `<=` on strings restricted to the character data. -/
def clLeB : List Char → List Char → Bool
  | [], _ => true
  | _ :: _, [] => false
  | a :: as, b :: bs => if a < b then true else if b < a then false else clLeB as bs

/-- Python `a <= b` on strings: code-point lexicographic order. -/
def lexLe (a b : String) : Bool :=
  clLeB a.data b.data

/-- The expression `sorted(list(set(ingredient_list)))` (app.py line 94): Python builds
the lexicographically sorted list of the distinct strings; `dedup` followed
by an insertion sort under `lexLe` produces the same list (both results are
sorted, duplicate-free and have the same members, which determines the list
uniquely). -/
def dedupSort (l : List String) : List String :=
  List.insertionSort (fun a b => lexLe a b = true) l.dedup

/-- The loop `for class_name in common_ingredient_classes` with the accumulating
`ingredient_list` (app.py lines 73-94): after each class, if the list is
non-empty, return it de-duplicated and sorted; `none` models falling
through to the final fail state. -/
def heuristicGo (els : List Element) (acc : List String) :
    List String → Option (List String)
  | [] => none
  | cls :: rest =>
    let acc2 := acc ++ candidatesOf cls els
    if acc2.isEmpty then heuristicGo els acc2 rest
    else some (dedupSort acc2)

/-- The heuristic extractor's resulting lines (before joining), if any. -/
def heuristicLines (els : List Element) : Option (List String) :=
  heuristicGo els [] common_ingredient_classes

/-- The final fail state message (app.py line 97). -/
def notFoundMsg : String :=
  "Error: Could not find ingredients using structured data or common HTML methods."

/-- Lines 58-97: the heuristic fallback followed by the final fail state. -/
def heuristicBranch (els : List Element) : String :=
  match heuristicLines els with
  | some lines => String.intercalate "\n" lines
  | none => notFoundMsg

/-! ## The whole function -/

/-- The successfully fetched, parsed page, as observed by the function. -/
structure Page where
  h1Text : Option String
  titleText : Option String
  scripts : List Script
  elements : List Element

/-- The title computation (app.py lines 22-27): text of
`soup.find('h1') or soup.find('title')` when one is truthy, else the
`"My Recipe"` fallback. The result is bound to the local `title`, which the
rest of the function never reads — the return value is the ingredients
string alone. -/
def computeTitle (p : Page) : String :=
  match p.h1Text.or p.titleText with
  | some t => t
  | none => "My Recipe"

/-- The body of the outer `try` after a successful fetch (app.py
lines 20-97): JSON-LD scan first, heuristic fallback second; any uncaught
exception escapes as `.error`. -/
def extractBody (p : Page) : Except PyError String := do
  match ← scanScripts p.scripts with
  | some s => return s
  | none => return heuristicBranch p.elements

/-- The outcome of `requests.get` + `raise_for_status`: a page, or the
message of the raised `RequestException`. -/
inductive FetchOutcome where
  | success (p : Page) : FetchOutcome
  | failure (msg : String) : FetchOutcome

/-- The message `f"Error connecting to URL: ..."` (app.py line 100). -/
def connectionMsg (m : String) : String :=
  "Error connecting to URL: " ++ m

/-- The message `f"An unexpected error occurred: ..."` (app.py line 102). -/
def unexpectedMsg (m : String) : String :=
  "An unexpected error occurred: " ++ m

/-- The function `extract_ingredients` (app.py lines 11-102): returns the scan result,
or one of the error strings (connection, unexpected; the final fail state
is inside `extractBody`). -/
def extract_ingredients (f : FetchOutcome) : String :=
  match f with
  | .failure m => connectionMsg m
  | .success p =>
    match extractBody p with
    | .ok s => s
    | .error e => unexpectedMsg e.msg

/-- The `index` route's error test (app.py line 113):
`raw_list.startswith("Error")`, i.e. the characters of `"Error"` are a
prefix of the characters of `raw_list`. -/
def indexTreatsAsError (raw : String) : Bool :=
  "Error".data.isPrefixOf raw.data

/-! ## The spec's reading of title extraction (for comparison with the code)

The specification (§4.4, and claim C1) says the extraction result carries a
title that is the structured-data `name` when a Recipe target was found
with one, else `h1`, else `title`, else the placeholder. The following
definitions state that reading so it can be compared with `computeTitle`,
the title the code actually computes. -/

/-- The Recipe target an item yields under the spec's reading (§4.2 steps
4-6): the item itself when typed `Recipe` with a non-empty ingredient
array, else the first such entry of its `@graph` array. -/
def specItemTarget (j : Json) : Option Json :=
  match j with
  | .obj fields =>
    if isRecipeVal (jLookup fields "@type")
        && truthy ((jLookup fields "recipeIngredient").getD (.arr [])) then
      some j
    else
      match jLookup fields "@graph" with
      | some (.arr graph) =>
        graph.find? fun g =>
          match g with
          | .obj gf =>
            isRecipeVal (jLookup gf "@type")
              && truthy ((jLookup gf "recipeIngredient").getD (.arr []))
          | _ => false
      | _ => none
  | _ => none

/-- The first Recipe target found across the script blocks, under the
spec's reading. -/
def specFoundTarget : List Script → Option Json
  | [] => none
  | .decoded j :: rest => ((dataList j).findSome? specItemTarget).or (specFoundTarget rest)
  | _ :: rest => specFoundTarget rest

/-- The found target's `name` field, when it is a string. -/
def specFoundName (scripts : List Script) : Option String :=
  match specFoundTarget scripts with
  | some (.obj fields) =>
    match jLookup fields "name" with
    | some (.str n) => some n
    | _ => none
  | _ => none

/-- The title as claim C1 states it: the found Recipe target's `name`, else
the first `h1` text, else the `title` text, else the placeholder. -/
def specClaimTitle (p : Page) : String :=
  match specFoundName p.scripts with
  | some n => n
  | none =>
    match p.h1Text with
    | some t => t
    | none =>
      match p.titleText with
      | some t => t
      | none => "My Recipe"

/-! ## Concrete pages used to instantiate the theorems -/

/-- A JSON-LD Recipe object carrying a `name` and two ingredients. -/
def cexRecipeJson : Json :=
  .obj [ ("@context", .str "https://schema.org"),
         ("@type", .str "Recipe"),
         ("name", .str "Spec Cake"),
         ("recipeIngredient", .arr [.str "1 cup flour", .str "2 oz sugar"]) ]

/-- A page whose JSON-LD Recipe has a `name` and whose `h1` differs. -/
def cexTitlePage : Page :=
  { h1Text := some "Page Heading",
    titleText := some "Doc Title",
    scripts := [.decoded cexRecipeJson],
    elements := [] }

/-- A plain Recipe page: one valid JSON-LD block. -/
def wRecipePage : Page :=
  { h1Text := none, titleText := none,
    scripts := [.decoded (.obj [ ("@type", .str "Recipe"),
      ("recipeIngredient", .arr [.str "2 cups flour", .str "1 tsp salt"]) ])],
    elements := [] }

/-- A malformed block followed by a valid Recipe block. -/
def wMalformedPage : Page :=
  { h1Text := none, titleText := none,
    scripts := [.malformed,
      .decoded (.obj [ ("@type", .str "Recipe"),
        ("recipeIngredient", .arr [.str "3 tbsp butter"]) ])],
    elements := [] }

/-- A Recipe nested in `@graph` behind an unrelated entry. -/
def wGraphPage : Page :=
  { h1Text := none, titleText := none,
    scripts := [.decoded (.obj [ ("@context", .str "https://schema.org"),
      ("@graph", .arr
        [ .obj [("@type", .str "WebPage"), ("name", .str "Some page")],
          .obj [ ("@type", .str "Recipe"),
                 ("recipeIngredient", .arr [.str "4 oz cheese", .str "1 cup milk"]) ] ]) ])],
    elements := [] }

/-- Ingredient-classed elements, out of lexicographic order, with a
duplicate and a non-matching element. -/
def wHeuristicEls : List Element :=
  [ { tag := "li", classes := ["wprm-recipe-ingredient"], text := "2 cups flour" },
    { tag := "li", classes := ["wprm-recipe-ingredient"], text := "1 tsp salt" },
    { tag := "li", classes := ["wprm-recipe-ingredient"], text := "1 tsp salt" },
    { tag := "div", classes := ["nav-bar"], text := "Home" } ]

/-- A page with no JSON-LD and the heuristic elements above. -/
def wHeuristicPage : Page :=
  { h1Text := none, titleText := none, scripts := [], elements := wHeuristicEls }

/-- A page whose only `ld+json` block has no text content, followed by a
valid Recipe block that is never reached. -/
def wNoTextPage : Page :=
  { h1Text := none, titleText := none,
    scripts := [.noText,
      .decoded (.obj [ ("@type", .str "Recipe"),
        ("recipeIngredient", .arr [.str "1 cup rice"]) ])],
    elements := [] }

/-- A page whose Recipe declares `@type` as a list containing "Recipe". -/
def wListTypePage : Page :=
  { h1Text := none, titleText := none,
    scripts := [.decoded (.obj [ ("@type", .arr [.str "Recipe", .str "Thing"]),
      ("recipeIngredient", .arr [.str "1 cup oats"]) ])],
    elements := [] }

/-- A page on which the scan raises: used against the `index` route test. -/
def wIndexPage : Page :=
  { h1Text := none, titleText := none, scripts := [.noText], elements := [] }

/-! # Plumbing lemmas -/

theorem pyOkBind {α β : Type} (a : α) (f : α → Except PyError β) :
    (Except.ok a >>= f) = f a := rfl

theorem pyErrorBind {α β : Type} (e : PyError) (f : α → Except PyError β) :
    ((Except.error e : Except PyError α) >>= f) = Except.error e := rfl

theorem pyPure {α : Type} (a : α) : (pure a : Except PyError α) = Except.ok a := rfl

theorem pyMapOk {α β : Type} (f : α → β) (a : α) :
    (f <$> (Except.ok a : Except PyError α)) = Except.ok (f a) := rfl

theorem pyMapError {α β : Type} (f : α → β) (e : PyError) :
    (f <$> (Except.error e : Except PyError α)) = Except.error e := rfl

theorem asStrList_map_str (l : List String) :
    asStrList (l.map Json.str) = some l := by
  induction l with
  | nil => rfl
  | cons a rest ih => simp [asStrList, ih]

theorem string_ne_empty_data {s : String} (h : s ≠ "") : s.data ≠ [] := by
  intro hd
  apply h
  cases s with
  | mk data => simp only at hd; rw [hd]

/-! # Order lemmas for the lexicographic comparison -/

theorem clLeB_total : ∀ x y : List Char, clLeB x y = true ∨ clLeB y x = true
  | [], _ => .inl rfl
  | _ :: _, [] => .inr rfl
  | a :: as, b :: bs => by
    by_cases hab : a < b
    · left; simp [clLeB, hab]
    · by_cases hba : b < a
      · right; simp [clLeB, hba]
      · rcases clLeB_total as bs with h | h
        · left; simp [clLeB, hab, hba, h]
        · right; simp [clLeB, hab, hba, h]

theorem clLeB_trans : ∀ x y z : List Char,
    clLeB x y = true → clLeB y z = true → clLeB x z = true
  | [], _, _, _, _ => rfl
  | _ :: _, [], _, hxy, _ => by simp [clLeB] at hxy
  | _ :: _, _ :: _, [], _, hyz => by simp [clLeB] at hyz
  | a :: as, b :: bs, c :: cs, hxy, hyz => by
    by_cases hab : a < b <;> by_cases hba : b < a
    · exact absurd hab (asymm hba)
    · -- a < b
      by_cases hbc : b < c
      · simp [clLeB, lt_trans hab hbc]
      · by_cases hcb : c < b
        · simp [clLeB, hbc, hcb] at hyz
        · have : b = c := le_antisymm (not_lt.mp hcb) (not_lt.mp hbc)
          subst this
          simp [clLeB, hab]
    · simp [clLeB, hab, hba] at hxy
    · -- neither: a = b
      have : a = b := le_antisymm (not_lt.mp hba) (not_lt.mp hab)
      subst this
      by_cases hac : a < c
      · simp [clLeB, hac]
      · by_cases hca : c < a
        · simp [clLeB, hac, hca] at hyz
        · simp [clLeB, hab, hac, hca] at hxy hyz ⊢
          exact clLeB_trans as bs cs hxy hyz

theorem dedupSort_pairwise (l : List String) :
    List.Pairwise (fun a b => lexLe a b = true ∧ a ≠ b) (dedupSort l) := by
  haveI : IsTotal String (fun a b => lexLe a b = true) :=
    ⟨fun a b => clLeB_total a.data b.data⟩
  haveI : IsTrans String (fun a b => lexLe a b = true) :=
    ⟨fun a b c => clLeB_trans a.data b.data c.data⟩
  have hs := List.sorted_insertionSort (fun a b : String => lexLe a b = true) l.dedup
  have hn : (dedupSort l).Nodup :=
    (List.perm_insertionSort (fun a b : String => lexLe a b = true) l.dedup).nodup_iff.mpr
      (List.nodup_dedup l)
  exact hs.and hn

theorem dedupSort_ne_nil {l : List String} (h : l ≠ []) : dedupSort l ≠ [] := by
  intro h0
  apply h
  have hp := List.perm_insertionSort (fun a b : String => lexLe a b = true) l.dedup
  rw [dedupSort] at h0
  rw [h0] at hp
  exact (List.dedup_eq_nil l).mp hp.symm.eq_nil

theorem dedupSort_mem {l : List String} {a : String} :
    a ∈ dedupSort l ↔ a ∈ l := by
  rw [dedupSort]
  rw [(List.perm_insertionSort (fun a b : String => lexLe a b = true) l.dedup).mem_iff]
  exact List.mem_dedup

/-! # Lemmas about the JSON-LD scan -/

theorem scanScripts_cons_none (s : Script) (h : scanScript s = .ok none)
    (rest : List Script) :
    scanScripts (s :: rest) = scanScripts rest := by
  simp [scanScripts, h, pyOkBind]

theorem scanScripts_append_none {pre : List Script}
    (h : ∀ s ∈ pre, scanScript s = .ok none) (rest : List Script) :
    scanScripts (pre ++ rest) = scanScripts rest := by
  induction pre with
  | nil => rfl
  | cons a l ih =>
    rw [List.cons_append, scanScripts_cons_none a (h a (by simp)),
      ih (fun s hs => h s (by simp [hs]))]

theorem scanScripts_cons_some {s : Script} {r : String}
    (h : scanScript s = .ok (some r)) (rest : List Script) :
    scanScripts (s :: rest) = .ok (some r) := by
  simp [scanScripts, h, pyOkBind, pyPure]

theorem scanScripts_cons_error (s : Script) {e : PyError}
    (h : scanScript s = .error e) (rest : List Script) :
    scanScripts (s :: rest) = .error e := by
  simp [scanScripts, h, pyErrorBind]

theorem processItem_direct {fields : List (String × Json)} {ings : List String}
    (ht : jLookup fields "@type" = some (.str "Recipe"))
    (hi : jLookup fields "recipeIngredient" = some (.arr (ings.map Json.str)))
    (hne : ings ≠ []) :
    processItem (.obj fields) = .ok (some (String.intercalate "\n" ings)) := by
  obtain ⟨a, tl, rfl⟩ : ∃ a tl, ings = a :: tl := by
    cases ings with
    | nil => exact absurd rfl hne
    | cons a tl => exact ⟨a, tl, rfl⟩
  simp [processItem, pyGet, pyGetD, ht, hi, isRecipeVal, truthy, pyJoin,
    asStrList, asStrList_map_str, pyOkBind, pyPure, pyMapOk]

theorem scanScript_single_direct {fields : List (String × Json)} {ings : List String}
    (ht : jLookup fields "@type" = some (.str "Recipe"))
    (hi : jLookup fields "recipeIngredient" = some (.arr (ings.map Json.str)))
    (hne : ings ≠ []) :
    scanScript (.decoded (.obj fields)) = .ok (some (String.intercalate "\n" ings)) := by
  simp [scanScript, dataList, scanItems, processItem_direct ht hi hne, pyOkBind, pyPure]

theorem scanGraph_cons_recipe {rf : List (String × Json)} {ings : List String}
    (ht : jLookup rf "@type" = some (.str "Recipe"))
    (hi : jLookup rf "recipeIngredient" = some (.arr (ings.map Json.str)))
    (hne : ings ≠ []) (rest : List Json) :
    scanGraph (Json.obj rf :: rest) = .ok (some (String.intercalate "\n" ings)) := by
  obtain ⟨a, tl, rfl⟩ : ∃ a tl, ings = a :: tl := by
    cases ings with
    | nil => exact absurd rfl hne
    | cons a tl => exact ⟨a, tl, rfl⟩
  simp [scanGraph, pyGet, pyGetD, ht, hi, isRecipeVal, truthy, pyJoin,
    asStrList, asStrList_map_str, pyOkBind, pyPure, pyMapOk]

theorem scanGraph_skip {gpre : List Json}
    (h : ∀ g ∈ gpre, ∃ gf, g = Json.obj gf ∧ isRecipeVal (jLookup gf "@type") = false)
    (l : List Json) :
    scanGraph (gpre ++ l) = scanGraph l := by
  induction gpre with
  | nil => rfl
  | cons g gl ih =>
    obtain ⟨gf, rfl, hfalse⟩ := h g (by simp)
    rw [List.cons_append]
    have step : scanGraph (Json.obj gf :: (gl ++ l)) = scanGraph (gl ++ l) := by
      simp [scanGraph, pyGet, hfalse, pyOkBind]
    rw [step, ih (fun g hg => h g (by simp [hg]))]

/-! # Shape of every successful scan result -/

theorem pyJoin_shape {j : Json} {s : String} (htr : truthy j = true)
    (h : pyJoin j = .ok s) :
    ∃ lines, lines ≠ [] ∧ s = String.intercalate "\n" lines := by
  cases j with
  | null => simp [truthy] at htr
  | bool b => simp [pyJoin] at h
  | num n => simp [pyJoin] at h
  | str t =>
    refine ⟨t.data.map String.singleton, ?_, ?_⟩
    · have ht : t ≠ "" := by simpa [truthy] using htr
      simpa using string_ne_empty_data ht
    · simp [pyJoin] at h
      exact h.symm
  | arr l =>
    cases hA : asStrList l with
    | none => simp [pyJoin, hA] at h
    | some strs =>
      refine ⟨strs, ?_, ?_⟩
      · intro hnil
        subst hnil
        cases l with
        | nil => simp [truthy] at htr
        | cons a tl => cases a <;> simp [asStrList] at hA
      · simp [pyJoin, hA] at h
        exact h.symm
  | obj fields =>
    refine ⟨fields.map Prod.fst, ?_, ?_⟩
    · cases fields with
      | nil => simp [truthy] at htr
      | cons a tl => simp
    · simp [pyJoin] at h
      exact h.symm

theorem scanGraph_shape : ∀ {gl : List Json} {s : String},
    scanGraph gl = .ok (some s) →
    ∃ lines, lines ≠ [] ∧ s = String.intercalate "\n" lines
  | [], s, h => by simp [scanGraph] at h
  | g :: rest, s, h => by
    cases g with
    | obj gf =>
      simp only [scanGraph, pyGet, pyOkBind] at h
      by_cases hrec : isRecipeVal (jLookup gf "@type")
      · rw [if_pos hrec] at h
        simp only [pyGetD, pyOkBind] at h
        by_cases htr : truthy ((jLookup gf "recipeIngredient").getD (.arr []))
        · rw [if_pos htr] at h
          cases hj : pyJoin ((jLookup gf "recipeIngredient").getD (.arr [])) with
          | error e => rw [hj, pyErrorBind] at h; exact absurd h (by simp)
          | ok s' =>
            rw [hj, pyOkBind] at h
            have hs : s' = s := by simpa [pyPure] using h
            subst hs
            exact pyJoin_shape htr hj
        · rw [if_neg htr] at h
          exact scanGraph_shape h
      · rw [if_neg hrec] at h
        exact scanGraph_shape h
    | null => simp [scanGraph, pyGet, pyErrorBind] at h
    | bool b => simp [scanGraph, pyGet, pyErrorBind] at h
    | num n => simp [scanGraph, pyGet, pyErrorBind] at h
    | str t => simp [scanGraph, pyGet, pyErrorBind] at h
    | arr l => simp [scanGraph, pyGet, pyErrorBind] at h

theorem graphPart_shape {j : Json} {s : String}
    (h : graphPart j = .ok (some s)) :
    ∃ lines, lines ≠ [] ∧ s = String.intercalate "\n" lines := by
  cases j with
  | obj fields =>
    cases hg : jLookup fields "@graph" with
    | none => simp [graphPart, hg] at h
    | some g =>
      cases hit : pyIterate g with
      | error e => simp [graphPart, hg, hit, pyErrorBind] at h
      | ok items =>
        simp only [graphPart, hg, hit, pyOkBind] at h
        exact scanGraph_shape h
  | null => simp [graphPart] at h
  | bool b => simp [graphPart] at h
  | num n => simp [graphPart] at h
  | str t => simp [graphPart] at h
  | arr l => simp [graphPart] at h

theorem processItem_shape {j : Json} {s : String}
    (h : processItem j = .ok (some s)) :
    ∃ lines, lines ≠ [] ∧ s = String.intercalate "\n" lines := by
  cases j with
  | obj fields =>
    simp only [processItem, pyGet, pyOkBind] at h
    by_cases hrec : isRecipeVal (jLookup fields "@type")
    · rw [if_pos hrec] at h
      simp only [pyGetD, pyOkBind] at h
      by_cases htr : truthy ((jLookup fields "recipeIngredient").getD (.arr []))
      · rw [if_pos htr] at h
        cases hj : pyJoin ((jLookup fields "recipeIngredient").getD (.arr [])) with
        | error e => rw [hj, pyErrorBind] at h; exact absurd h (by simp)
        | ok s' =>
          rw [hj, pyOkBind] at h
          have hs : s' = s := by simpa [pyPure] using h
          subst hs
          exact pyJoin_shape htr hj
      · rw [if_neg htr] at h
        exact graphPart_shape h
    · rw [if_neg hrec] at h
      exact graphPart_shape h
  | null => simp [processItem, pyGet, pyErrorBind] at h
  | bool b => simp [processItem, pyGet, pyErrorBind] at h
  | num n => simp [processItem, pyGet, pyErrorBind] at h
  | str t => simp [processItem, pyGet, pyErrorBind] at h
  | arr l => simp [processItem, pyGet, pyErrorBind] at h

theorem scanItems_shape : ∀ {items : List Json} {s : String},
    scanItems items = .ok (some s) →
    ∃ lines, lines ≠ [] ∧ s = String.intercalate "\n" lines
  | [], s, h => by simp [scanItems] at h
  | j :: rest, s, h => by
    cases hp : processItem j with
    | error e => simp [scanItems, hp, pyErrorBind] at h
    | ok o =>
      cases o with
      | some s' =>
        have hs : s' = s := by
          simpa [scanItems, hp, pyOkBind, pyPure] using h
        subst hs
        exact processItem_shape hp
      | none =>
        simp only [scanItems, hp, pyOkBind] at h
        exact scanItems_shape h

theorem scanScripts_shape : ∀ {scripts : List Script} {s : String},
    scanScripts scripts = .ok (some s) →
    ∃ lines, lines ≠ [] ∧ s = String.intercalate "\n" lines
  | [], s, h => by simp [scanScripts] at h
  | sc :: rest, s, h => by
    cases hs : scanScript sc with
    | error e => simp [scanScripts, hs, pyErrorBind] at h
    | ok o =>
      cases o with
      | some s' =>
        have heq : s' = s := by
          simpa [scanScripts, hs, pyOkBind, pyPure] using h
        subst heq
        cases sc with
        | noText => exact absurd hs (by simp [scanScript])
        | malformed => exact absurd hs (by simp [scanScript])
        | decoded j => exact scanItems_shape hs
      | none =>
        simp only [scanScripts, hs, pyOkBind] at h
        exact scanScripts_shape h

/-! # Lemmas about the heuristic fallback -/

theorem heuristicGo_some_ne_nil {els : List Element} :
    ∀ {L acc r : List String}, heuristicGo els acc L = some r → r ≠ []
  | [], acc, r, h => by simp [heuristicGo] at h
  | cls :: rest, acc, r, h => by
    simp only [heuristicGo] at h
    by_cases he : (acc ++ candidatesOf cls els).isEmpty
    · rw [if_pos he] at h
      exact heuristicGo_some_ne_nil h
    · rw [if_neg he] at h
      have hr : r = dedupSort (acc ++ candidatesOf cls els) := by
        simpa using h.symm
      subst hr
      exact dedupSort_ne_nil (by simpa using he)

theorem heuristicGo_first {els : List Element} :
    ∀ {L r : List String}, heuristicGo els [] L = some r →
      ∃ pre cls post, L = pre ++ cls :: post
        ∧ (∀ c ∈ pre, candidatesOf c els = [])
        ∧ candidatesOf cls els ≠ []
        ∧ r = dedupSort (candidatesOf cls els)
  | [], r, h => by simp [heuristicGo] at h
  | cls :: rest, r, h => by
    simp only [heuristicGo, List.nil_append] at h
    by_cases he : (candidatesOf cls els).isEmpty
    · have hnil : candidatesOf cls els = [] := by simpa using he
      rw [if_pos he, hnil] at h
      obtain ⟨pre, cls', post, hL, hpre, hne, hr⟩ := heuristicGo_first h
      exact ⟨cls :: pre, cls', post, by simp [hL], by
        intro c hc
        rcases List.mem_cons.mp hc with rfl | hc
        · exact hnil
        · exact hpre c hc, hne, hr⟩
    · rw [if_neg he] at h
      have hr : r = dedupSort (candidatesOf cls els) := by simpa using h.symm
      exact ⟨[], cls, rest, rfl, by simp, by simpa using he, hr⟩

theorem heuristicLines_some_ne_nil {els : List Element} {r : List String}
    (h : heuristicLines els = some r) : r ≠ [] :=
  heuristicGo_some_ne_nil h

/-! # Claim theorems -/

/-- C3: for every input (fetch failure or any page), `extract_ingredients`
returns a result value — one of the connection-error string, the
unexpected-error string, the not-found string, or a newline-join of a
non-empty list of ingredient lines. No exception escapes the boundary: the
function is total and every uncaught `PyError` is converted to the
unexpected-error result. -/
theorem extract_always_returns_result (f : FetchOutcome) :
    (∃ m, extract_ingredients f = connectionMsg m)
    ∨ (∃ m, extract_ingredients f = unexpectedMsg m)
    ∨ extract_ingredients f = notFoundMsg
    ∨ (∃ lines, lines ≠ [] ∧ extract_ingredients f = String.intercalate "\n" lines) := by
  cases f with
  | failure m => exact .inl ⟨m, rfl⟩
  | success p =>
    cases hb : extractBody p with
    | error e =>
      exact .inr (.inl ⟨e.msg, by simp [extract_ingredients, hb]⟩)
    | ok s =>
      have hres : extract_ingredients (.success p) = s := by
        simp [extract_ingredients, hb]
      cases hs : scanScripts p.scripts with
      | error e => simp [extractBody, hs, pyErrorBind] at hb
      | ok o =>
        cases o with
        | some s' =>
          have heq : s = s' := by
            rw [extractBody, hs, pyOkBind] at hb
            simpa [pyPure] using hb.symm
          obtain ⟨lines, hlne, hsl⟩ := scanScripts_shape hs
          exact .inr (.inr (.inr ⟨lines, hlne, by rw [hres, heq, hsl]⟩))
        | none =>
          have heq : s = heuristicBranch p.elements := by
            rw [extractBody, hs, pyOkBind] at hb
            simpa [pyPure] using hb.symm
          cases hh : heuristicLines p.elements with
          | none =>
            refine .inr (.inr (.inl ?_))
            rw [hres, heq, heuristicBranch, hh]
          | some lines =>
            refine .inr (.inr (.inr ⟨lines, heuristicLines_some_ne_nil hh, ?_⟩))
            rw [hres, heq, heuristicBranch, hh]

/-- C2: a JSON-LD block decoding to an object typed `Recipe` with a
non-empty `recipeIngredient` array of strings makes the pipeline return
exactly those strings, in source order, joined with newlines — provided the
blocks before it yield nothing (first match wins). -/
theorem jsonld_recipe_returns_ingredients (p : Page) (pre post : List Script)
    (fields : List (String × Json)) (ings : List String)
    (hpre : ∀ s ∈ pre, scanScript s = .ok none)
    (ht : jLookup fields "@type" = some (.str "Recipe"))
    (hi : jLookup fields "recipeIngredient" = some (.arr (ings.map Json.str)))
    (hne : ings ≠ [])
    (hp : p.scripts = pre ++ Script.decoded (.obj fields) :: post) :
    extract_ingredients (.success p) = String.intercalate "\n" ings := by
  have hscan : scanScripts p.scripts = .ok (some (String.intercalate "\n" ings)) := by
    rw [hp, scanScripts_append_none hpre,
      scanScripts_cons_some (scanScript_single_direct ht hi hne)]
  simp [extract_ingredients, extractBody, hscan, pyOkBind, pyPure]

/-- Witness for C2: the concrete Recipe page yields its two ingredient
lines in source order. -/
theorem jsonld_recipe_returns_ingredients_witness :
    extract_ingredients (.success wRecipePage)
      = String.intercalate "\n" ["2 cups flour", "1 tsp salt"] :=
  jsonld_recipe_returns_ingredients wRecipePage [] []
    [("@type", .str "Recipe"),
     ("recipeIngredient", .arr [.str "2 cups flour", .str "1 tsp salt"])]
    ["2 cups flour", "1 tsp salt"]
    (by intro s hs; simp at hs) rfl rfl (by simp) rfl

/-- C4: a `ld+json` block whose content fails to decode as JSON is skipped
silently — the scan over the remaining blocks continues unchanged — and in
particular a malformed block followed by a valid Recipe block still
produces that block's ingredients. -/
theorem malformed_block_skipped (p : Page) (rest : List Script)
    (fields : List (String × Json)) (ings : List String)
    (ht : jLookup fields "@type" = some (.str "Recipe"))
    (hi : jLookup fields "recipeIngredient" = some (.arr (ings.map Json.str)))
    (hne : ings ≠ [])
    (hp : p.scripts = Script.malformed :: Script.decoded (.obj fields) :: rest) :
    (∀ scripts : List Script,
      scanScripts (Script.malformed :: scripts) = scanScripts scripts)
    ∧ extract_ingredients (.success p) = String.intercalate "\n" ings := by
  refine ⟨fun scripts => scanScripts_cons_none Script.malformed rfl scripts, ?_⟩
  have hscan : scanScripts p.scripts = .ok (some (String.intercalate "\n" ings)) := by
    rw [hp, scanScripts_cons_none Script.malformed rfl,
      scanScripts_cons_some (scanScript_single_direct ht hi hne)]
  simp [extract_ingredients, extractBody, hscan, pyOkBind, pyPure]

/-- Witness for C4: the malformed block is skipped and the valid block
behind it is used. -/
theorem malformed_block_skipped_witness :
    (∀ scripts : List Script,
      scanScripts (Script.malformed :: scripts) = scanScripts scripts)
    ∧ extract_ingredients (.success wMalformedPage)
        = String.intercalate "\n" ["3 tbsp butter"] :=
  malformed_block_skipped wMalformedPage []
    [("@type", .str "Recipe"), ("recipeIngredient", .arr [.str "3 tbsp butter"])]
    ["3 tbsp butter"] rfl rfl (by simp) rfl

/-- C5: a candidate object not itself typed `Recipe` but whose `@graph`
array holds a `Recipe` entry with a non-empty string ingredient array
(possibly behind unrelated, non-`Recipe` node objects) makes extraction
succeed with that entry's ingredients. -/
theorem graph_nested_recipe_found (p : Page) (fields rf : List (String × Json))
    (gpre gpost : List Json) (ings : List String)
    (hnotdirect : isRecipeVal (jLookup fields "@type") = false)
    (hgraph : jLookup fields "@graph" = some (.arr (gpre ++ Json.obj rf :: gpost)))
    (hpre : ∀ g ∈ gpre, ∃ gf, g = Json.obj gf ∧ isRecipeVal (jLookup gf "@type") = false)
    (ht : jLookup rf "@type" = some (.str "Recipe"))
    (hi : jLookup rf "recipeIngredient" = some (.arr (ings.map Json.str)))
    (hne : ings ≠ [])
    (hp : p.scripts = [Script.decoded (Json.obj fields)]) :
    extract_ingredients (.success p) = String.intercalate "\n" ings := by
  have hitem : processItem (Json.obj fields)
      = .ok (some (String.intercalate "\n" ings)) := by
    simp only [processItem, pyGet, pyOkBind, hnotdirect, Bool.false_eq_true, if_false]
    simp only [graphPart, hgraph, pyIterate, pyOkBind]
    rw [scanGraph_skip hpre, scanGraph_cons_recipe ht hi hne]
  have hscan : scanScripts p.scripts
      = .ok (some (String.intercalate "\n" ings)) := by
    rw [hp]
    exact scanScripts_cons_some
      (by simp [scanScript, dataList, scanItems, hitem, pyOkBind, pyPure]) []
  simp [extract_ingredients, extractBody, hscan, pyOkBind, pyPure]

/-- Witness for C5: the Recipe nested behind an unrelated `WebPage` entry
in `@graph` is found. -/
theorem graph_nested_recipe_found_witness :
    extract_ingredients (.success wGraphPage)
      = String.intercalate "\n" ["4 oz cheese", "1 cup milk"] :=
  graph_nested_recipe_found wGraphPage
    [("@context", .str "https://schema.org"),
     ("@graph", .arr
       [ .obj [("@type", .str "WebPage"), ("name", .str "Some page")],
         .obj [("@type", .str "Recipe"),
               ("recipeIngredient", .arr [.str "4 oz cheese", .str "1 cup milk"])] ])]
    [("@type", .str "Recipe"),
     ("recipeIngredient", .arr [.str "4 oz cheese", .str "1 cup milk"])]
    [.obj [("@type", .str "WebPage"), ("name", .str "Some page")]] [] 
    ["4 oz cheese", "1 cup milk"]
    rfl rfl
    (by intro g hg
        have hgeq : g = Json.obj [("@type", Json.str "WebPage"), ("name", Json.str "Some page")] := by
          simpa using hg
        exact ⟨[("@type", Json.str "WebPage"), ("name", Json.str "Some page")], hgeq, rfl⟩)
    rfl rfl (by simp) rfl

/-- C8: a `ld+json` script element with no text content makes
`json.loads` raise `TypeError`, which the per-block
`except json.JSONDecodeError` does not catch: the whole extraction returns
the generic unexpected-error result — whatever valid blocks follow are
never consulted. -/
theorem notext_block_aborts_scan (p : Page) (pre rest : List Script)
    (hpre : ∀ s ∈ pre, scanScript s = .ok none)
    (hp : p.scripts = pre ++ Script.noText :: rest) :
    extract_ingredients (.success p)
      = unexpectedMsg "the JSON object must be str, bytes or bytearray, not NoneType" := by
  have hscan : scanScripts p.scripts
      = .error (.typeError "the JSON object must be str, bytes or bytearray, not NoneType") := by
    rw [hp, scanScripts_append_none hpre]
    exact scanScripts_cons_error Script.noText rfl rest
  simp [extract_ingredients, extractBody, hscan, pyErrorBind, PyError.msg]

/-- Witness for C8: the page whose first block has no text returns the
unexpected-error message even though a valid Recipe block follows. -/
theorem notext_block_aborts_scan_witness :
    extract_ingredients (.success wNoTextPage)
      = unexpectedMsg "the JSON object must be str, bytes or bytearray, not NoneType" :=
  notext_block_aborts_scan wNoTextPage []
    [.decoded (.obj [("@type", .str "Recipe"),
      ("recipeIngredient", .arr [.str "1 cup rice"])])]
    (by intro s hs; simp at hs) rfl

/-- C9: an object whose `@type` is a list of type names containing
`"Recipe"` is not recognized as a Recipe target (the test is exact string
equality), so such a page falls through to the heuristic extractor. -/
theorem list_typed_recipe_not_recognized (p : Page)
    (fields : List (String × Json)) (ts : List Json)
    (ht : jLookup fields "@type" = some (.arr ts))
    (hmem : Json.str "Recipe" ∈ ts)
    (hg : jLookup fields "@graph" = none)
    (hp : p.scripts = [Script.decoded (Json.obj fields)]) :
    scanScripts p.scripts = .ok none
    ∧ extract_ingredients (.success p) = heuristicBranch p.elements := by
  have hitem : processItem (Json.obj fields) = .ok none := by
    simp [processItem, pyGet, pyOkBind, ht, isRecipeVal, graphPart, hg]
  have hscan : scanScripts p.scripts = .ok none := by
    rw [hp]
    exact scanScripts_cons_none _
      (by simp [scanScript, dataList, scanItems, hitem, pyOkBind]) []
  exact ⟨hscan, by simp [extract_ingredients, extractBody, hscan, pyOkBind, pyPure]⟩

/-- Witness for C9: the list-typed Recipe page is not matched by the scan
and ends in the heuristic branch (here the not-found message). -/
theorem list_typed_recipe_not_recognized_witness :
    scanScripts wListTypePage.scripts = .ok none
    ∧ extract_ingredients (.success wListTypePage)
        = heuristicBranch wListTypePage.elements :=
  list_typed_recipe_not_recognized wListTypePage
    [("@type", .arr [.str "Recipe", .str "Thing"]),
     ("recipeIngredient", .arr [.str "1 cup oats"])]
    [.str "Recipe", .str "Thing"]
    rfl (by simp) rfl rfl

/-- C10: the unexpected-error branch returns a message beginning
"An unexpected error occurred", which does not start with "Error", so the
`index` route's `raw_list.startswith("Error")` test treats every such
result as a successful extraction. -/
theorem unexpected_error_treated_as_success (p : Page) (e : PyError)
    (h : extractBody p = .error e) :
    extract_ingredients (.success p) = unexpectedMsg e.msg
    ∧ indexTreatsAsError (extract_ingredients (.success p)) = false := by
  have h1 : extract_ingredients (.success p) = unexpectedMsg e.msg := by
    simp [extract_ingredients, h]
  refine ⟨h1, ?_⟩
  rw [h1]
  show ("Error".data.isPrefixOf (unexpectedMsg e.msg).data) = false
  rw [unexpectedMsg, String.data_append]
  rfl

/-- Witness for C10: the page whose scan raises is reported with the
unexpected-error message and the `index` route does not treat it as an
error. -/
theorem unexpected_error_treated_as_success_witness :
    extract_ingredients (.success wIndexPage)
      = unexpectedMsg (PyError.typeError
          "the JSON object must be str, bytes or bytearray, not NoneType").msg
    ∧ indexTreatsAsError (extract_ingredients (.success wIndexPage)) = false :=
  unexpected_error_treated_as_success wIndexPage
    (.typeError "the JSON object must be str, bytes or bytearray, not NoneType") rfl

theorem clLeB_antisymm : ∀ x y : List Char,
    clLeB x y = true → clLeB y x = true → x = y
  | [], [], _, _ => rfl
  | [], _ :: _, _, hyx => by simp [clLeB] at hyx
  | _ :: _, [], hxy, _ => by simp [clLeB] at hxy
  | a :: as, b :: bs, hxy, hyx => by
    by_cases hab : a < b
    · simp [clLeB, hab, asymm hab] at hyx
    · by_cases hba : b < a
      · simp [clLeB, hab, hba] at hxy
      · have hEq : a = b := le_antisymm (not_lt.mp hba) (not_lt.mp hab)
        subst hEq
        simp only [clLeB, lt_irrefl, if_false] at hxy hyx
        rw [clLeB_antisymm as bs hxy hyx]

theorem lexLe_antisymm {a b : String} (h1 : lexLe a b = true)
    (h2 : lexLe b a = true) : a = b := by
  have hd := clLeB_antisymm a.data b.data h1 h2
  cases a with
  | mk da =>
    cases b with
    | mk db => simp only at hd; rw [hd]

theorem dedupSort_perm_eq {l₁ l₂ : List String} (h : l₁.Perm l₂) :
    dedupSort l₁ = dedupSort l₂ := by
  haveI : IsTotal String (fun a b => lexLe a b = true) :=
    ⟨fun a b => clLeB_total a.data b.data⟩
  haveI : IsTrans String (fun a b => lexLe a b = true) :=
    ⟨fun a b c => clLeB_trans a.data b.data c.data⟩
  haveI : IsAntisymm String (fun a b => lexLe a b = true) :=
    ⟨fun a b h1 h2 => lexLe_antisymm h1 h2⟩
  refine List.eq_of_perm_of_sorted ?_
    (List.sorted_insertionSort (fun a b : String => lexLe a b = true) l₁.dedup)
    (List.sorted_insertionSort (fun a b : String => lexLe a b = true) l₂.dedup)
  exact ((List.perm_insertionSort _ l₁.dedup).trans h.dedup).trans
    (List.perm_insertionSort _ l₂.dedup).symm

theorem candidatesOf_perm {els₁ els₂ : List Element} (h : els₁.Perm els₂)
    (cls : String) :
    (candidatesOf cls els₁).Perm (candidatesOf cls els₂) :=
  ((h.filter (matchesClass cls)).map Element.text).filter keepCandidate

theorem heuristicGo_congr {els₁ els₂ : List Element} (h : els₁.Perm els₂) :
    ∀ L : List String, heuristicGo els₁ [] L = heuristicGo els₂ [] L
  | [] => rfl
  | cls :: rest => by
    have hperm := candidatesOf_perm h cls
    simp only [heuristicGo, List.nil_append]
    by_cases he : (candidatesOf cls els₁).isEmpty
    · have h1 : candidatesOf cls els₁ = [] := by simpa using he
      have h2 : candidatesOf cls els₂ = [] := by
        rw [h1] at hperm
        exact hperm.symm.eq_nil
      rw [if_pos he, if_pos (by simp [h2]), h1, h2]
      exact heuristicGo_congr h rest
    · have h2 : ¬ (candidatesOf cls els₂).isEmpty := by
        intro hc
        apply he
        have h2nil : candidatesOf cls els₂ = [] := by simpa using hc
        rw [h2nil] at hperm
        simp [hperm.eq_nil]
      rw [if_neg he, if_neg h2, dedupSort_perm_eq hperm]

/-- C6: whenever the heuristic extractor succeeds, the returned lines are
pairwise strictly increasing in code-point lexicographic order (hence
sorted and duplicate-free under exact text match), and the result is
unchanged under any reordering of the page's elements. -/
theorem heuristic_sorted_dedup (els els' : List Element) (r : List String)
    (h : heuristicLines els = some r) (hp : els.Perm els') :
    List.Pairwise (fun a b => lexLe a b = true ∧ a ≠ b) r
    ∧ heuristicLines els' = some r := by
  obtain ⟨pre, cls, post, hL, hpre, hne, hr⟩ := heuristicGo_first h
  refine ⟨?_, ?_⟩
  · rw [hr]
    exact dedupSort_pairwise _
  · rw [heuristicLines, ← heuristicGo_congr hp, ← heuristicLines, h]

/-- Witness for C6: the concrete heuristic page produces the sorted,
de-duplicated lines, also when its elements are reversed. -/
theorem heuristic_sorted_dedup_witness :
    List.Pairwise (fun a b => lexLe a b = true ∧ a ≠ b)
      ["1 tsp salt", "2 cups flour"]
    ∧ heuristicLines wHeuristicEls.reverse = some ["1 tsp salt", "2 cups flour"] :=
  heuristic_sorted_dedup wHeuristicEls wHeuristicEls.reverse
    ["1 tsp salt", "2 cups flour"] rfl (List.reverse_perm _).symm

/-- C7: a successful heuristic result comes from the first class substring
(in list order) with at least one surviving candidate: every earlier class
yields no candidates and the result is built from that class's candidates
alone — candidates of later classes are never merged in. -/
theorem heuristic_first_class_only (els : List Element) (r : List String)
    (h : heuristicLines els = some r) :
    ∃ pre cls post, common_ingredient_classes = pre ++ cls :: post
      ∧ (∀ c ∈ pre, candidatesOf c els = [])
      ∧ candidatesOf cls els ≠ []
      ∧ r = dedupSort (candidatesOf cls els) :=
  heuristicGo_first h

/-- Witness for C7: on the concrete heuristic page the winning class is the
first one, `wprm-recipe-ingredient`. -/
theorem heuristic_first_class_only_witness :
    ∃ pre cls post, common_ingredient_classes = pre ++ cls :: post
      ∧ (∀ c ∈ pre, candidatesOf c wHeuristicEls = [])
      ∧ candidatesOf cls wHeuristicEls ≠ []
      ∧ ["1 tsp salt", "2 cups flour"] = dedupSort (candidatesOf cls wHeuristicEls) :=
  heuristic_first_class_only wHeuristicEls ["1 tsp salt", "2 cups flour"] rfl

/-- C1 counterexample: on `cexTitlePage` the scan finds a Recipe target
whose `name` is "Spec Cake" and succeeds with its ingredients, yet the
title the code computes is the `h1` text "Page Heading" — the code never
consults the `name` field, so the claimed priority (name over `h1`) is
false; moreover the function's return value is the joined ingredients
alone, carrying no title at all. -/
theorem title_name_priority_counterexample :
    specFoundName cexTitlePage.scripts = some "Spec Cake"
    ∧ specClaimTitle cexTitlePage = "Spec Cake"
    ∧ computeTitle cexTitlePage = "Page Heading"
    ∧ computeTitle cexTitlePage ≠ specClaimTitle cexTitlePage
    ∧ extract_ingredients (.success cexTitlePage) = "1 cup flour\n2 oz sugar" := by
  refine ⟨rfl, rfl, rfl, ?_, rfl⟩
  decide

/-- C1 (amended): the title the code computes is the text of the first
truthy `h1` if present, else the `title` element's text, else the fixed
placeholder "My Recipe"; it never depends on the script blocks (the
structured-data `name` is not consulted), and the extraction result does
not carry the title — the return value is unchanged under any change of
the `h1`/`title` texts. -/
theorem title_h1_else_title_else_default (p : Page) :
    (∀ t, p.h1Text = some t → computeTitle p = t)
    ∧ (p.h1Text = none → ∀ t, p.titleText = some t → computeTitle p = t)
    ∧ (p.h1Text = none → p.titleText = none → computeTitle p = "My Recipe")
    ∧ (∀ sc : List Script, computeTitle { p with scripts := sc } = computeTitle p)
    ∧ (∀ a b : Option String,
        extract_ingredients (.success { p with h1Text := a, titleText := b })
          = extract_ingredients (.success p)) := by
  refine ⟨?_, ?_, ?_, ?_, ?_⟩
  · intro t ht
    simp [computeTitle, ht, Option.or]
  · intro h1 t ht
    simp [computeTitle, h1, ht, Option.or]
  · intro h1 h2
    simp [computeTitle, h1, h2, Option.or]
  · intro sc
    rfl
  · intro a b
    rfl

/-- Witness for the amended C1: on the concrete page the `h1` text wins. -/
theorem title_h1_else_title_else_default_witness :
    computeTitle cexTitlePage = "Page Heading" :=
  (title_h1_else_title_else_default cexTitlePage).1 "Page Heading" rfl
